import Mathlib

/-
Verification of the window-query engine in
`src/packages/core/src/wasm/items_manager.c`.

The C code works on machine integers: `long long` is a signed 64-bit
two's-complement integer and `int` a signed 32-bit one.  We embed machine
values as unbounded `Int`/`Nat` with the reductions modulo `2 ^ 32` /
`2 ^ 64` written out explicitly at the points where the C code truncates,
sign-extends or reinterprets bits.
-/

/-- The 64-bit two's-complement bit pattern of an integer, as a natural
number below `2 ^ 64`.  This is what a `long long` value looks like in
memory, and what a C cast of a (small enough) integer to `long long`
stores. -/
def bits64 (x : Int) : Nat := (x % 2 ^ 64).toNat

/-- Read a 64-bit bit pattern back as a signed `long long` value
(two's-complement: patterns at or above `2 ^ 63` are negative). -/
def int64OfBits (n : Nat) : Int :=
  if n < 2 ^ 63 then (n : Int) else (n : Int) - 2 ^ 64

/-- Read the low 32 bits of a bit pattern as a signed `int` value
(two's-complement: low words at or above `2 ^ 31` are negative). -/
def int32OfBits (n : Nat) : Int :=
  if n % 2 ^ 32 < 2 ^ 31 then ((n % 2 ^ 32 : Nat) : Int)
  else ((n % 2 ^ 32 : Nat) : Int) - 2 ^ 32

/-- The C conversion applied when a `long long` expression is returned
from a function whose return type is `int`: the value is reduced to its
low 32 bits and those are reinterpreted as a signed 32-bit integer. -/
def toInt32 (x : Int) : Int := (x + 2 ^ 31) % 2 ^ 32 - 2 ^ 31

/-- C: `long long get_item_size(long long item) { return item >> 32; }`.
`>>` on a signed 64-bit value is an arithmetic (sign-preserving) right
shift, i.e. floor division by `2 ^ 32`; `Int` division (Euclidean)
coincides with floor division because the divisor `2 ^ 32` is positive. -/
def get_item_size (item : Int) : Int := item / 2 ^ 32

/-- C: `long long get_item_offset(long long item) { return item & 0xffffffff; }`.
Masking a two's-complement signed 64-bit value with the low-32-bit mask
keeps the low 32 bits zero-extended, i.e. it reduces the value modulo
`2 ^ 32` to a non-negative representative; `Int` `%` (Euclidean) is
exactly that. -/
def get_item_offset (item : Int) : Int := item % 2 ^ 32

/-- C: `long long make_item(int size, int offset)
       { return ((long long) size << 32) | (long long) offset; }`.
Each `int` argument is sign-extended to a 64-bit pattern (`bits64`), the
size pattern is shifted left by 32 and truncated to 64 bits, the two
patterns are bitwise-ORed, and the resulting pattern is the returned
signed 64-bit value. -/
def make_item (size offset : Int) : Int :=
  int64OfBits (((bits64 size <<< 32) % 2 ^ 64) ||| bits64 offset)

/-- The packing formula as the specification states it:
`value = (size << 32) | (offset & 0xFFFFFFFF)`, i.e. the offset is
masked to its low 32 bits (zero-extended) before the OR.  Stated on
64-bit patterns; to be compared with `bits64 (make_item size offset)`. -/
def make_item_spec_bits (size offset : Int) : Nat :=
  ((bits64 size <<< 32) % 2 ^ 64) ||| (offset % 2 ^ 32).toNat

/-- C: `int is_item_in_window(long long item, long long cursor_offset,
long long cursor_size, long long window_size)`.  Returns the boolean
value of
`get_item_offset(item) <= cursor_offset + cursor_size + window_size &&
 get_item_offset(item) + get_item_size(item) >= cursor_offset - window_size`. -/
def is_item_in_window (item cursor_offset cursor_size window_size : Int) : Bool :=
  decide (get_item_offset item ≤ cursor_offset + cursor_size + window_size) &&
  decide (get_item_offset item + get_item_size item ≥ cursor_offset - window_size)

/-- The loop of `get_item_indices_in_window`:
`for (int i = 0; i < items_count; ++i)
   if (is_item_in_window(items[i], ...)) result[result_count++] = i;`.
The items still to be scanned are the list argument and `i` is the index
of its head in the original array; the indices written to the output
buffer are returned as a list (the C function returns `result_count`,
which is the length of this list). -/
def get_item_indices_in_window_loop (co cs ws : Int) : List Int → Nat → List Nat
  | [], _ => []
  | item :: rest, i =>
    if is_item_in_window item co cs ws then
      i :: get_item_indices_in_window_loop co cs ws rest (i + 1)
    else
      get_item_indices_in_window_loop co cs ws rest (i + 1)

/-- C: `int get_item_indices_in_window(long long* items, long long* result,
int items_count, int cursor_offset, int cursor_size, int window_size)`.
The array `items` of length `items_count` is embedded as a list (a
non-positive `items_count` scans no items, i.e. the empty list); the
filled prefix `result[0..result_count)` is the returned list and the C
return value `result_count` is its length. -/
def get_item_indices_in_window (items : List Int) (co cs ws : Int) : List Nat :=
  get_item_indices_in_window_loop co cs ws items 0

/-- C: `int get_top_padding(long long* items, int first_item_index)
       { return get_item_offset(items[first_item_index]); }`
with the `long long` result converted to the `int` return type. -/
def get_top_padding (items : List Int) (first_item_index : Nat) : Int :=
  toInt32 (get_item_offset (items.getD first_item_index 0))

/-- C: `int get_bottom_padding(long long* items, int total_items, int last_item_index)`.
Reads `last_item = items[total_items - 1]` and
`last_item_in_window = items[last_item_index]`, computes
`get_item_offset(last_item) + get_item_size(last_item)
 - get_item_offset(last_item_in_window) - get_item_size(last_item_in_window)`
in `long long` arithmetic, and converts the result to the `int` return
type. -/
def get_bottom_padding (items : List Int) (total_items last_item_index : Nat) : Int :=
  toInt32 (get_item_offset (items.getD (total_items - 1) 0) +
    get_item_size (items.getD (total_items - 1) 0) -
    get_item_offset (items.getD last_item_index 0) -
    get_item_size (items.getD last_item_index 0))

/- ### Helper lemmas on bit patterns -/

theorem lor_lt_mask (b d : Nat) (hb : b < 2 ^ 32) (hd : d < 2 ^ 32) :
    b ||| d < 2 ^ 32 := by
  apply Nat.lt_pow_two_of_testBit
  intro i hi
  rw [Nat.testBit_lor,
    Nat.testBit_lt_two_pow (Nat.lt_of_lt_of_le hb (Nat.pow_le_pow_right (by norm_num) hi)),
    Nat.testBit_lt_two_pow (Nat.lt_of_lt_of_le hd (Nat.pow_le_pow_right (by norm_num) hi))]
  rfl

theorem lor_mul_add (a c b d : Nat) (hb : b < 2 ^ 32) (hd : d < 2 ^ 32) :
    (2 ^ 32 * a + b) ||| (2 ^ 32 * c + d) = 2 ^ 32 * (a ||| c) + (b ||| d) := by
  apply Nat.eq_of_testBit_eq
  intro i
  rw [Nat.testBit_lor, Nat.testBit_mul_pow_two_add a hb,
    Nat.testBit_mul_pow_two_add c hd,
    Nat.testBit_mul_pow_two_add (a ||| c) (lor_lt_mask b d hb hd)]
  by_cases h : i < 32 <;> simp [h, Nat.testBit_lor]

theorem lor_all_ones (a : Nat) (ha : a < 2 ^ 32) :
    a ||| (2 ^ 32 - 1) = 2 ^ 32 - 1 := by
  apply Nat.eq_of_testBit_eq
  intro i
  rw [Nat.testBit_lor, Nat.testBit_two_pow_sub_one]
  by_cases h : i < 32
  · simp [h]
  · rw [Nat.testBit_lt_two_pow
      (Nat.lt_of_lt_of_le ha (Nat.pow_le_pow_right (by norm_num) (Nat.le_of_not_lt h)))]
    simp [h]

theorem lor_mul_add_left (a c d : Nat) (hd : d < 2 ^ 32) :
    (2 ^ 32 * a) ||| (2 ^ 32 * c + d) = 2 ^ 32 * (a ||| c) + d := by
  have h := lor_mul_add a c 0 d (by omega) hd
  simpa using h

/-- Closed form of `make_item` on in-range `int` arguments: a
non-negative offset lands in the low 32 bits below the size field, while
a negative offset sign-extends over the high 32 bits, so the packed
value is just the offset itself. -/
theorem make_item_eq (size offset : Int)
    (hs : -2 ^ 31 ≤ size) (hs' : size < 2 ^ 31)
    (ho : -2 ^ 31 ≤ offset) (ho' : offset < 2 ^ 31) :
    make_item size offset =
      if 0 ≤ offset then 2 ^ 32 * size + offset else offset := by
  have ha : (((size % 2 ^ 64).toNat) * 2 ^ 32) % 2 ^ 64 =
      2 ^ 32 * ((size % 2 ^ 32).toNat) := by
    have h := Nat.mul_mod_mul_right (2 ^ 32) ((size % 2 ^ 64).toNat) (2 ^ 32)
    omega
  unfold make_item bits64 int64OfBits
  rw [Nat.shiftLeft_eq, ha]
  by_cases hoff : 0 ≤ offset
  · have hd : (offset % 2 ^ 64).toNat = 2 ^ 32 * 0 + offset.toNat := by omega
    rw [hd, lor_mul_add_left _ _ _ (by omega)]
    simp only [Nat.or_zero]
    rw [if_pos hoff]
    split <;> omega
  · have hd : (offset % 2 ^ 64).toNat =
        2 ^ 32 * (2 ^ 32 - 1) + (offset + 2 ^ 32).toNat := by omega
    rw [hd, lor_mul_add_left _ _ _ (by omega)]
    rw [lor_all_ones _ (by omega)]
    rw [if_neg hoff]
    split <;> omega

/- ### Helper lemmas on the window predicate and the scan -/

theorem is_item_in_window_iff (item co cs ws : Int) :
    is_item_in_window item co cs ws = true ↔
      (get_item_offset item ≤ co + cs + ws ∧
       co - ws ≤ get_item_offset item + get_item_size item) := by
  simp [is_item_in_window, ge_iff_le]

/-- The scan loop started at index `i` produces exactly the indices (shifted
by `i`) of the remaining items that satisfy the window predicate, in order. -/
theorem get_item_indices_in_window_loop_eq (co cs ws : Int) (items : List Int) (i : Nat) :
    get_item_indices_in_window_loop co cs ws items i =
      (List.filter (fun k => is_item_in_window (items.getD k 0) co cs ws)
        (List.range items.length)).map (fun k => i + k) := by
  induction items generalizing i with
  | nil => simp [get_item_indices_in_window_loop]
  | cons a rest ih =>
    show (if is_item_in_window a co cs ws then
        i :: get_item_indices_in_window_loop co cs ws rest (i + 1)
      else get_item_indices_in_window_loop co cs ws rest (i + 1)) = _
    rw [List.length_cons, List.range_succ_eq_map, List.filter_cons]
    simp only [List.getD_cons_zero, List.filter_map, Function.comp_def,
      List.getD_cons_succ]
    have hmap : ∀ l : List Nat,
        (List.map Nat.succ l).map (fun k => i + k) = l.map (fun k => (i + 1) + k) := by
      intro l
      rw [List.map_map]
      refine List.map_congr_left (fun k _ => ?_)
      simp only [Function.comp_apply]
      omega
    by_cases hp : is_item_in_window a co cs ws
    · rw [if_pos hp, if_pos hp, ih (i + 1), List.map_cons, hmap]
      simp
    · rw [if_neg hp, if_neg hp, ih (i + 1), hmap]

/-- The scan is a filter of the index range `0..items_count`. -/
theorem get_item_indices_in_window_eq (items : List Int) (co cs ws : Int) :
    get_item_indices_in_window items co cs ws =
      List.filter (fun k => is_item_in_window (items.getD k 0) co cs ws)
        (List.range items.length) := by
  unfold get_item_indices_in_window
  rw [get_item_indices_in_window_loop_eq]
  have h : (fun k : Nat => 0 + k) = id := funext fun k => Nat.zero_add k
  rw [h, List.map_id]

theorem mem_get_item_indices_in_window (items : List Int) (co cs ws : Int) (j : Nat) :
    j ∈ get_item_indices_in_window items co cs ws ↔
      j < items.length ∧ is_item_in_window (items.getD j 0) co cs ws = true := by
  rw [get_item_indices_in_window_eq]
  simp [List.mem_filter]

/- ### Claims -/

/-- Claim C1: for every items array and every cursor/window parameters,
`get_item_indices_in_window` returns exactly the indices of the items
satisfying the window-membership predicate, in ascending index order
(the scan is the filter of the index range), its count (the C return
value, the length of the filled result prefix) is the number of items
satisfying the predicate, and when no item satisfies the predicate the
result is empty. -/
theorem C1_scan_returns_matching_indices_in_order (items : List Int) (co cs ws : Int) :
    get_item_indices_in_window items co cs ws =
      List.filter (fun k => is_item_in_window (items.getD k 0) co cs ws)
        (List.range items.length) ∧
    List.Pairwise (· < ·) (get_item_indices_in_window items co cs ws) ∧
    (∀ j : Nat, j ∈ get_item_indices_in_window items co cs ws ↔
      j < items.length ∧ is_item_in_window (items.getD j 0) co cs ws = true) ∧
    (get_item_indices_in_window items co cs ws).length =
      (List.range items.length).countP
        (fun k => is_item_in_window (items.getD k 0) co cs ws) ∧
    ((∀ j : Nat, j < items.length →
        is_item_in_window (items.getD j 0) co cs ws = false) →
      get_item_indices_in_window items co cs ws = []) := by
  refine ⟨get_item_indices_in_window_eq items co cs ws, ?_, 
    mem_get_item_indices_in_window items co cs ws, ?_, ?_⟩
  · rw [get_item_indices_in_window_eq]
    exact List.Pairwise.sublist (List.filter_sublist _) (List.pairwise_lt_range _)
  · rw [get_item_indices_in_window_eq, List.countP_eq_length_filter]
  · intro hnone
    rw [List.eq_nil_iff_forall_not_mem]
    intro j hj
    rw [mem_get_item_indices_in_window] at hj
    obtain ⟨h1, h2⟩ := hj
    rw [hnone j h1] at h2
    exact Bool.false_ne_true h2

/-- Witness for C1 at the specification's worked example: three items of
size 10 at offsets 0, 10, 20 with viewport `[10, 20]` and no margin. -/
theorem C1_scan_returns_matching_indices_in_order_witness :
    get_item_indices_in_window [make_item 10 0, make_item 10 10, make_item 10 20] 10 10 0 =
      List.filter
        (fun k => is_item_in_window
          (([make_item 10 0, make_item 10 10, make_item 10 20] : List Int).getD k 0) 10 10 0)
        (List.range 3) ∧
    get_item_indices_in_window [make_item 10 0, make_item 10 10, make_item 10 20] 10 10 0 =
      [0, 1, 2] :=
  ⟨(C1_scan_returns_matching_indices_in_order
      [make_item 10 0, make_item 10 10, make_item 10 20] 10 10 0).1, by decide⟩

/-- Claim C2: the window predicate holds exactly when the decoded offset
is at most `cursor_offset + cursor_size + window_size` and the decoded
offset plus the decoded size is at least `cursor_offset - window_size`;
both comparisons are inclusive, so an item exactly touching either
boundary of the expanded window is in-window and one unit beyond either
boundary is not. -/
theorem C2_window_predicate_iff (item co cs ws : Int) :
    (is_item_in_window item co cs ws = true ↔
      (get_item_offset item ≤ co + cs + ws ∧
       co - ws ≤ get_item_offset item + get_item_size item)) ∧
    (get_item_offset item = co + cs + ws →
      co - ws ≤ get_item_offset item + get_item_size item →
      is_item_in_window item co cs ws = true) ∧
    (get_item_offset item + get_item_size item = co - ws →
      get_item_offset item ≤ co + cs + ws →
      is_item_in_window item co cs ws = true) ∧
    (get_item_offset item = co + cs + ws + 1 →
      is_item_in_window item co cs ws = false) ∧
    (get_item_offset item + get_item_size item = co - ws - 1 →
      is_item_in_window item co cs ws = false) := by
  refine ⟨is_item_in_window_iff item co cs ws, ?_, ?_, ?_, ?_⟩ <;> intro h
  · intro h2
    exact (is_item_in_window_iff item co cs ws).2 ⟨le_of_eq h, h2⟩
  · intro h2
    exact (is_item_in_window_iff item co cs ws).2 ⟨h2, le_of_eq h.symm⟩
  · rw [← Bool.not_eq_true, is_item_in_window_iff]
    omega
  · rw [← Bool.not_eq_true, is_item_in_window_iff]
    omega

/-- Witness for C2 at the boundary example of the specification: an item
of size 10 at offset 20 exactly touches the expanded window `[10, 20]`
and is in-window; at offset 21 it is not. -/
theorem C2_window_predicate_iff_witness :
    is_item_in_window (make_item 10 20) 10 10 0 = true ∧
    is_item_in_window (make_item 10 21) 10 10 0 = false :=
  ⟨(C2_window_predicate_iff (make_item 10 20) 10 10 0).2.1 (by decide) (by decide),
   (C2_window_predicate_iff (make_item 10 21) 10 10 0).2.2.2.1 (by decide)⟩

/-- Claim C10: every embedded operation is a total Lean function (each
is structural recursion or a direct definition, so it terminates on all
inputs); the scan consumes exactly one item per loop iteration, returns
at most `items_count` indices, and performs zero iterations on an empty
scan range (a non-positive `items_count`), returning the empty result. -/
theorem C10_scan_terminates_and_is_linear (items : List Int) (co cs ws : Int) :
    (get_item_indices_in_window items co cs ws).length ≤ items.length ∧
    get_item_indices_in_window ([] : List Int) co cs ws = [] ∧
    (∀ (item : Int) (rest : List Int) (i : Nat),
      get_item_indices_in_window_loop co cs ws (item :: rest) i =
        if is_item_in_window item co cs ws then
          i :: get_item_indices_in_window_loop co cs ws rest (i + 1)
        else
          get_item_indices_in_window_loop co cs ws rest (i + 1)) := by
  refine ⟨?_, rfl, fun item rest i => rfl⟩
  rw [get_item_indices_in_window_eq]
  calc (List.filter (fun k => is_item_in_window (items.getD k 0) co cs ws)
          (List.range items.length)).length
      ≤ (List.range items.length).length := List.length_filter_le _ _
    _ = items.length := List.length_range items.length

/-- Counterexample to claim C3 as stated: at `size = 5`, `offset = -1`
the packed value is not `(size << 32) | (offset & 0xFFFFFFFF)` (the OR
takes the sign-extended 64-bit offset, not the masked one), and the size
field is affected by the offset: it decodes as `-1`, not `5`. -/
theorem C3_pack_formula_counterexample :
    bits64 (make_item 5 (-1)) ≠ make_item_spec_bits 5 (-1) ∧
    get_item_size (make_item 5 (-1)) ≠ 5 := by decide

/-- Claim C3 (amended): `make_item size offset` ORs the shifted size
pattern with the sign-extended 64-bit pattern of `offset`.  The low 32
bits of the result always hold offset's 32-bit pattern; when
`offset ≥ 0` the result is exactly the claimed
`(size << 32) | (offset & 0xFFFFFFFF)` with size's 32-bit pattern in the
high 32 bits, but when `offset < 0` the sign extension forces the high
32 bits to all ones regardless of `size`. -/
theorem C3_pack_layout (size offset : Int)
    (hs : -2 ^ 31 ≤ size) (hs' : size < 2 ^ 31)
    (ho : -2 ^ 31 ≤ offset) (ho' : offset < 2 ^ 31) :
    bits64 (make_item size offset) % 2 ^ 32 = (offset % 2 ^ 32).toNat ∧
    (0 ≤ offset →
      bits64 (make_item size offset) = make_item_spec_bits size offset ∧
      bits64 (make_item size offset) / 2 ^ 32 = (size % 2 ^ 32).toNat) ∧
    (offset < 0 → bits64 (make_item size offset) / 2 ^ 32 = 2 ^ 32 - 1) := by
  have hm := make_item_eq size offset hs hs' ho ho'
  by_cases hoff : 0 ≤ offset
  · rw [if_pos hoff] at hm
    have hspec : make_item_spec_bits size offset =
        2 ^ 32 * ((size % 2 ^ 32).toNat) + offset.toNat := by
      unfold make_item_spec_bits bits64
      rw [Nat.shiftLeft_eq]
      have h := Nat.mul_mod_mul_right (2 ^ 32) ((size % 2 ^ 64).toNat) (2 ^ 32)
      have ha : (((size % 2 ^ 64).toNat) * 2 ^ 32) % 2 ^ 64 =
          2 ^ 32 * ((size % 2 ^ 32).toNat) := by omega
      have hd : (offset % 2 ^ 32).toNat = 2 ^ 32 * 0 + offset.toNat := by omega
      rw [ha, hd, lor_mul_add_left _ _ _ (by omega)]
      simp only [Nat.or_zero]
    rw [hm, hspec]
    unfold bits64
    refine ⟨by omega, fun _ => ⟨by omega, by omega⟩, fun hneg => by omega⟩
  · rw [if_neg hoff] at hm
    rw [hm]
    unfold bits64
    refine ⟨by omega, fun h0 => absurd h0 hoff, fun _ => by omega⟩

/-- Witness for the amended C3 at `size = 5`, `offset = 7`. -/
theorem C3_pack_layout_witness :
    bits64 (make_item 5 7) % 2 ^ 32 = ((7 : Int) % 2 ^ 32).toNat ∧
    (0 ≤ (7 : Int) →
      bits64 (make_item 5 7) = make_item_spec_bits 5 7 ∧
      bits64 (make_item 5 7) / 2 ^ 32 = ((5 : Int) % 2 ^ 32).toNat) ∧
    ((7 : Int) < 0 → bits64 (make_item 5 7) / 2 ^ 32 = 2 ^ 32 - 1) :=
  C3_pack_layout 5 7 (by decide) (by decide) (by decide) (by decide)

/-- Claim C5: for every int32 `size` (negative sizes included) and every
non-negative int32 `offset`, decoding recovers the encoded fields:
`get_item_size (make_item size offset) = size` and
`get_item_offset (make_item size offset) = offset`. -/
theorem C5_roundtrip_nonneg_offset (size offset : Int)
    (hs : -2 ^ 31 ≤ size) (hs' : size < 2 ^ 31)
    (ho : 0 ≤ offset) (ho' : offset < 2 ^ 31) :
    get_item_size (make_item size offset) = size ∧
    get_item_offset (make_item size offset) = offset := by
  rw [make_item_eq size offset hs hs' (by omega) ho', if_pos ho]
  unfold get_item_size get_item_offset
  constructor <;> omega

/-- Witness for C5 at a negative size and a non-negative offset. -/
theorem C5_roundtrip_nonneg_offset_witness :
    get_item_size (make_item (-7) 5) = -7 ∧
    get_item_offset (make_item (-7) 5) = 5 :=
  C5_roundtrip_nonneg_offset (-7) 5 (by decide) (by decide) (by decide) (by decide)

/-- Claim C8: the two decoders are sign-asymmetric.  On every signed
64-bit value, `get_item_size` returns the high 32 bits of the bit
pattern read as a signed (sign-extended) quantity — negative when the
high word's top bit is set — while `get_item_offset` returns the low 32
bits zero-extended, hence always in `[0, 2 ^ 32)`. -/
theorem C8_decoders_sign_asymmetric (item : Int)
    (h1 : -2 ^ 63 ≤ item) (h2 : item < 2 ^ 63) :
    get_item_size item = int32OfBits (bits64 item / 2 ^ 32) ∧
    get_item_offset item = ((bits64 item % 2 ^ 32 : Nat) : Int) ∧
    0 ≤ get_item_offset item ∧ get_item_offset item < 2 ^ 32 ∧
    (2 ^ 31 ≤ bits64 item / 2 ^ 32 → get_item_size item < 0) ∧
    (bits64 item / 2 ^ 32 < 2 ^ 31 → 0 ≤ get_item_size item) := by
  unfold get_item_size get_item_offset bits64 int32OfBits
  refine ⟨?_, by omega, by omega, by omega, by omega, by omega⟩
  split <;> omega

/-- Witness for C8 at `item = -1` (all 64 bits set): the size decodes
negative, the offset decodes as the large positive `2 ^ 32 - 1`. -/
theorem C8_decoders_sign_asymmetric_witness :
    get_item_size (-1) = int32OfBits (bits64 (-1) / 2 ^ 32) ∧
    get_item_offset (-1) = ((bits64 (-1) % 2 ^ 32 : Nat) : Int) ∧
    0 ≤ get_item_offset (-1) ∧ get_item_offset (-1) < 2 ^ 32 ∧
    (2 ^ 31 ≤ bits64 (-1) / 2 ^ 32 → get_item_size (-1) < 0) ∧
    (bits64 (-1) / 2 ^ 32 < 2 ^ 31 → 0 ≤ get_item_size (-1)) :=
  C8_decoders_sign_asymmetric (-1) (by decide) (by decide)

/-- Claim C9: for int32 inputs with `offset < 0`, the sign extension of
`offset` to 64 bits sets all high 32 bits of the packed value to ones,
so the decoded size is `-1` regardless of `size` and the decoded offset
is `offset + 2 ^ 32`. -/
theorem C9_negative_offset_clobbers_size (size offset : Int)
    (hs : -2 ^ 31 ≤ size) (hs' : size < 2 ^ 31)
    (ho : -2 ^ 31 ≤ offset) (ho' : offset < 0) :
    bits64 (make_item size offset) / 2 ^ 32 = 2 ^ 32 - 1 ∧
    get_item_size (make_item size offset) = -1 ∧
    get_item_offset (make_item size offset) = offset + 2 ^ 32 := by
  rw [make_item_eq size offset hs hs' ho (by omega), if_neg (by omega)]
  unfold bits64 get_item_size get_item_offset
  refine ⟨by omega, by omega, by omega⟩

/-- Witness for C9 at `size = 5`, `offset = -1`. -/
theorem C9_negative_offset_clobbers_size_witness :
    bits64 (make_item 5 (-1)) / 2 ^ 32 = 2 ^ 32 - 1 ∧
    get_item_size (make_item 5 (-1)) = -1 ∧
    get_item_offset (make_item 5 (-1)) = -1 + 2 ^ 32 :=
  C9_negative_offset_clobbers_size 5 (-1) (by decide) (by decide) (by decide) (by decide)

theorem pairwise_map_le_getD (items : List Int) (f : Int → Int)
    (h : (items.map f).Pairwise (· ≤ ·)) (a b : Nat) (hab : a ≤ b)
    (hb : b < items.length) : f (items.getD a 0) ≤ f (items.getD b 0) := by
  have ha : a < items.length := lt_of_le_of_lt hab hb
  rcases Nat.lt_or_ge a b with hlt | hge
  · have hp := List.pairwise_iff_getElem.1 h a b (by simpa using ha) (by simpa using hb) hlt
    rw [List.getElem_map, List.getElem_map] at hp
    rw [List.getD_eq_getElem items 0 ha, List.getD_eq_getElem items 0 hb]
    exact hp
  · have hab' : a = b := le_antisymm hab hge
    subst hab'
    exact le_refl _

/-- Counterexample to claim C4 as stated: the decoded offsets of
`[(size 100, offset 0), (size 0, offset 10), (size 100, offset 20)]` are
non-decreasing, yet with cursor offset 50, cursor size 100 and no margin
the scan returns indices 0 and 2 but not 1 — not a contiguous run
(monotone offsets alone do not make the item end positions monotone). -/
theorem C4_contiguity_counterexample :
    (([make_item 100 0, make_item 0 10, make_item 100 20] : List Int).map
      (fun it => get_item_offset it)).Pairwise (· ≤ ·) ∧
    0 ∈ get_item_indices_in_window
      [make_item 100 0, make_item 0 10, make_item 100 20] 50 100 0 ∧
    2 ∈ get_item_indices_in_window
      [make_item 100 0, make_item 0 10, make_item 100 20] 50 100 0 ∧
    1 ∉ get_item_indices_in_window
      [make_item 100 0, make_item 0 10, make_item 100 20] 50 100 0 := by
  decide

/-- Claim C4 (amended): if the decoded offsets AND the decoded item end
positions (offset + size) are both non-decreasing in index — as they are
for a non-overlapping monotone layout — then the indices returned by the
scan form a contiguous run: any index between two returned indices is
also returned. -/
theorem C4_contiguous_run (items : List Int) (co cs ws : Int)
    (hoff : (items.map (fun it => get_item_offset it)).Pairwise (· ≤ ·))
    (hend : (items.map (fun it => get_item_offset it + get_item_size it)).Pairwise (· ≤ ·))
    (i j k : Nat)
    (hi : i ∈ get_item_indices_in_window items co cs ws)
    (hk : k ∈ get_item_indices_in_window items co cs ws)
    (hij : i ≤ j) (hjk : j ≤ k) :
    j ∈ get_item_indices_in_window items co cs ws := by
  rw [mem_get_item_indices_in_window] at hi hk ⊢
  obtain ⟨hilt, hip⟩ := hi
  obtain ⟨hklt, hkp⟩ := hk
  have hjlt : j < items.length := lt_of_le_of_lt hjk hklt
  rw [is_item_in_window_iff] at hip hkp
  refine ⟨hjlt, (is_item_in_window_iff _ co cs ws).2 ⟨?_, ?_⟩⟩
  · exact le_trans
      (pairwise_map_le_getD items (fun it => get_item_offset it) hoff j k hjk hklt)
      hkp.1
  · exact le_trans hip.2
      (pairwise_map_le_getD items
        (fun it => get_item_offset it + get_item_size it) hend i j hij hjlt)

/-- Witness for the amended C4: three stacked items of size 10, window
`[10, 20]`; indices 0 and 2 are in the result, so index 1 is too. -/
theorem C4_contiguous_run_witness :
    1 ∈ get_item_indices_in_window
      [make_item 10 0, make_item 10 10, make_item 10 20] 10 10 0 :=
  C4_contiguous_run [make_item 10 0, make_item 10 10, make_item 10 20] 10 10 0
    (by decide) (by decide) 0 1 2 (by decide) (by decide) (by decide) (by decide)

/-- Counterexample to claim C6 as stated: with the packed items
`[0, 2^31]` (item 0: size 0 at offset 0; item 1: size 0 at offset 2^31),
`total_items = 2` and `last_item_index = 0`, the true difference of end
positions is `2^31`, but the function's `int` return type truncates it
to `-2^31`. -/
theorem C6_bottom_padding_counterexample :
    ¬ (get_bottom_padding [0, 2147483648] 2 0 =
      get_item_offset (([0, 2147483648] : List Int).getD 1 0) +
      get_item_size (([0, 2147483648] : List Int).getD 1 0) -
      (get_item_offset (([0, 2147483648] : List Int).getD 0 0) +
       get_item_size (([0, 2147483648] : List Int).getD 0 0))) := by
  decide

/-- Claim C6 (amended): `get_bottom_padding` returns
`(offset(items[total_items-1]) + size(items[total_items-1])) -
 (offset(items[last_item_index]) + size(items[last_item_index]))`
whenever that difference fits in a signed 32-bit integer (its `int`
return type truncates it otherwise). -/
theorem C6_bottom_padding_eq (items : List Int) (total_items last_item_index : Nat)
    (hlo : -2 ^ 31 ≤ get_item_offset (items.getD (total_items - 1) 0) +
      get_item_size (items.getD (total_items - 1) 0) -
      (get_item_offset (items.getD last_item_index 0) +
       get_item_size (items.getD last_item_index 0)))
    (hhi : get_item_offset (items.getD (total_items - 1) 0) +
      get_item_size (items.getD (total_items - 1) 0) -
      (get_item_offset (items.getD last_item_index 0) +
       get_item_size (items.getD last_item_index 0)) < 2 ^ 31) :
    get_bottom_padding items total_items last_item_index =
      get_item_offset (items.getD (total_items - 1) 0) +
      get_item_size (items.getD (total_items - 1) 0) -
      (get_item_offset (items.getD last_item_index 0) +
       get_item_size (items.getD last_item_index 0)) := by
  simp only [get_bottom_padding, toInt32] at *
  omega

/-- Witness for the amended C6 at the specification's padding example:
items of size 10 at offsets 0, 10, 20, last visible index 1, so the
bottom padding is `30 - 20 = 10`. -/
theorem C6_bottom_padding_eq_witness :
    get_bottom_padding [make_item 10 0, make_item 10 10, make_item 10 20] 3 1 = 10 := by
  have h := C6_bottom_padding_eq [make_item 10 0, make_item 10 10, make_item 10 20] 3 1
    (by decide) (by decide)
  rw [h]
  decide

/-- Counterexample to claim C7 as stated: for the single packed item
`2^31` (size 0, offset 2^31) the decoded offset is `2^31`, but the
function's `int` return type truncates it to `-2^31`. -/
theorem C7_top_padding_counterexample :
    ¬ (get_top_padding [2147483648] 0 =
      get_item_offset (([2147483648] : List Int).getD 0 0)) := by
  decide

/-- Claim C7 (amended): `get_top_padding` returns the decoded offset of
`items[first_item_index]` whenever that offset is below `2^31` (the
decoded offset is always non-negative, but values at or above `2^31` are
truncated by the `int` return type). -/
theorem C7_top_padding_eq (items : List Int) (first_item_index : Nat)
    (h : get_item_offset (items.getD first_item_index 0) < 2 ^ 31) :
    get_top_padding items first_item_index =
      get_item_offset (items.getD first_item_index 0) := by
  simp only [get_top_padding, toInt32, get_item_offset] at *
  omega

/-- Witness for the amended C7 at the specification's padding example:
the first visible item has index 1 and decoded offset 10. -/
theorem C7_top_padding_eq_witness :
    get_top_padding [make_item 10 0, make_item 10 10, make_item 10 20] 1 = 10 := by
  have h := C7_top_padding_eq [make_item 10 0, make_item 10 10, make_item 10 20] 1
    (by decide)
  rw [h]
  decide
